import Mathlib

/-!
Shallow embedding of src/pa3.c, a software-simulated virtual-memory unit
with a two-level page table, a TLB, per-frame reference counts and
copy-on-write forking.  Machine unsigned arithmetic is modelled on Nat with
an explicit modulus where the C code can wrap.  The fixed system parameters
(PTES_PER_PAGE_SHIFT, NR_PAGEFRAMES, NR_TLB_ENTRIES) are not fixed by the
source file; the model carries the shift as an argument sh and recovers the
array sizes from the lengths of the lists in the state, so every theorem
holds for all parameter choices.
-/

namespace PA3

/-- Modelled from the spec: the access-rights bitmask (none / read / write)
is a fixed system parameter supplied by the framework header, which is not
part of src; read occupies the low bit. -/
def ACCESS_READ : Nat := 1

/-- Modelled from the spec: write occupies the second bit of the
access-rights bitmask. -/
def ACCESS_WRITE : Nat := 2

/-- Modulus of C unsigned int arithmetic, used where mapcounts can wrap and
for the value an unsigned variable holds after being assigned -1. -/
def UINT32_MOD : Nat := 4294967296

/-- One TLB entry, shadowing struct tlb_entry: valid, vpn, rw, pfn. -/
structure TlbEntry where
  valid : Bool
  vpn : Nat
  rw : Nat
  pfn : Nat
deriving DecidableEq

/-- An invalid TLB slot with all fields clear. -/
def tlbNone : TlbEntry := ⟨false, 0, 0, 0⟩

/-- One page table entry, shadowing struct pte: valid, rw, pfn, private.
The C field named private is called priv here because private is a
reserved word of Lean. -/
structure Pte where
  valid : Bool
  rw : Nat
  pfn : Nat
  priv : Nat
deriving DecidableEq

/-- An invalid page table entry with all fields clear. -/
def pteNone : Pte := ⟨false, 0, 0, 0⟩

/-- A page directory: the inner array of PTEs (struct pte_directory). -/
abbrev PteDirectory := List Pte

/-- A page table: the outer array of possibly absent directory slots
(struct pagetable, whose outer_ptes are nullable pointers). -/
abbrev Pagetable := List (Option PteDirectory)

/-- A process, shadowing struct process: its pid and its own page table.
The ready-list linkage is represented by membership in the list held by
the state. -/
structure Process where
  pid : Nat
  pagetable : Pagetable
deriving DecidableEq

/-- The whole mutable state of pa3.c: the current process (whose page table
is what ptbr points at), the ready list @processes, the TLB array and the
mapcounts array. -/
structure State where
  current : Process
  processes : List Process
  tlb : List TlbEntry
  mapcounts : List Nat
deriving DecidableEq

/-- Index of the first element satisfying p, mirroring the C for-loop scans
that stop at the first hit. -/
def firstIdx (p : α → Bool) : List α → Option Nat
  | [] => none
  | a :: l => if p a then some 0 else (firstIdx p l).map (· + 1)

/-- Total array read with a default, mirroring C array indexing. -/
def nth (l : List α) (i : Nat) (d : α) : α :=
  match l, i with
  | [], _ => d
  | a :: _, 0 => a
  | _ :: t, n + 1 => nth t n d

/-- lookup_tlb, src/pa3.c lines 67 to 82.  The C condition
tlb[i].vpn == vpn && tlb[i].rw & rw == rw && tlb[i].valid
parses, by C operator precedence, as tlb[i].rw & (rw == rw), that is
tlb[i].rw & 1, and that parse is embedded literally below.  Returns
some pfn for the C true case (with the out-parameter set to the cached
pfn) and none for the C false case; the function mutates nothing. -/
def lookup_tlb (s : State) (vpn rw : Nat) : Option Nat :=
  (s.tlb.find? (fun e =>
      e.vpn == vpn && (e.rw &&& (if rw == rw then 1 else 0)) != 0 && e.valid)).map
    (fun e => e.pfn)

/-- insert_tlb, src/pa3.c lines 96 to 111.  The first scan finds the first
structurally unused slot, the second scan overrides the target with the
slot of an existing valid entry for the same vpn.  When every slot is valid
and no entry matches, the C scan runs off the end of the array (the spec
rules this out by capacity); the model leaves the TLB unchanged there
because List.set out of range is the identity. -/
def insert_tlb (s : State) (vpn rw pfn : Nat) : State :=
  let firstInvalid := (firstIdx (fun e => !e.valid) s.tlb).getD s.tlb.length
  let target := (firstIdx (fun e => e.valid && e.vpn == vpn) s.tlb).getD firstInvalid
  { s with tlb := s.tlb.set target ⟨true, vpn, rw, pfn⟩ }

/-- The page-table write of alloc_page, src/pa3.c lines 139 to 154: split
the vpn, lazily materialize the directory when the slot is NULL (the C
malloc initializes only the valid flags to false; the remaining fields of
a fresh directory are modelled as zero), then populate the target entry
as valid with the given rights, the chosen pfn and private cleared. -/
def allocWrite (sh : Nat) (pt : Pagetable) (vpn rw pfn : Nat) : Pagetable :=
  let vpn1 := vpn >>> sh
  let vpn2 := vpn % 2 ^ sh
  let dir := match nth pt vpn1 none with
    | none => List.replicate (2 ^ sh) pteNone
    | some d => d
  pt.set vpn1 (some (dir.set vpn2 ⟨true, rw, pfn, 0⟩))

/-- alloc_page, src/pa3.c lines 130 to 158: scan mapcounts for the first
frame with count zero; when none exists return -1 (modelled as none) and
change nothing; otherwise increment that count and write the page table
entry of the current process, returning the frame number. -/
def alloc_page (sh : Nat) (s : State) (vpn rw : Nat) : State × Option Nat :=
  match firstIdx (fun c => c == 0) s.mapcounts with
  | none => (s, none)
  | some pfn =>
    ({ s with
        mapcounts := s.mapcounts.set pfn ((nth s.mapcounts pfn 0 + 1) % UINT32_MOD),
        current := { s.current with
          pagetable := allocWrite sh s.current.pagetable vpn rw pfn } },
      some pfn)

/-- free_page, src/pa3.c lines 170 to 192: decrement the mapped frame count
(unsigned, hence the wrap-around modulus), clear the valid flag, and clear
the TLB entries whose vpn matches when the count has reached zero.  When
the updated directory holds no valid entry the C code calls free on the
directory block WITHOUT clearing the slot pointer, so the slot stays
non-absent (a dangling pointer); structurally the page table keeps the
slot in either case, which is what the model records.  A NULL directory
slot is a caller-contract violation the C dereferences; the model returns
the state unchanged there. -/
def free_page (sh : Nat) (s : State) (vpn : Nat) : State :=
  let vpn1 := vpn >>> sh
  let vpn2 := vpn % 2 ^ sh
  match nth s.current.pagetable vpn1 none with
  | none => s
  | some d =>
    let pte := nth d vpn2 pteNone
    let pfn := pte.pfn
    let mc := s.mapcounts.set pfn ((nth s.mapcounts pfn 0 + (UINT32_MOD - 1)) % UINT32_MOD)
    let d1 := d.set vpn2 { pte with valid := false }
    let pt := s.current.pagetable.set vpn1 (some d1)
    let tlb1 := if nth mc pfn 0 == 0
      then s.tlb.map (fun e => if e.vpn == vpn then { e with valid := false } else e)
      else s.tlb
    { s with current := { s.current with pagetable := pt }, mapcounts := mc, tlb := tlb1 }

/-- handle_page_fault, src/pa3.c lines 211 to 243: an absent directory or
an invalid entry returns true at once without touching anything; a valid
entry whose rights are disjoint from the request and whose private backup
meets the request is restored from the backup (backup cleared); when the
frame count exceeds one the count is decremented, alloc_page is called for
the same vpn with the restored rights (rewriting the same entry to the new
frame; on allocation failure the C stores (unsigned)-1 into matching TLB
pfns), and valid TLB entries for the vpn are repointed; in both branches
valid TLB entries for the vpn get their rw set to the REQUESTED rights and
true is returned.  Every other case returns false without mutation. -/
def handle_page_fault (sh : Nat) (s : State) (vpn rw : Nat) : State × Bool :=
  let vpn1 := vpn >>> sh
  let vpn2 := vpn % 2 ^ sh
  match nth s.current.pagetable vpn1 none with
  | none => (s, true)
  | some d =>
    let pte := nth d vpn2 pteNone
    if !pte.valid then (s, true)
    else if (pte.rw &&& rw) = 0 ∧ (pte.priv &&& rw) ≠ 0 then
      let restored := pte.priv
      let d1 := d.set vpn2 { pte with rw := restored, priv := 0 }
      let s1 := { s with current := { s.current with
        pagetable := s.current.pagetable.set vpn1 (some d1) } }
      let c := nth s1.mapcounts pte.pfn 0
      if 1 < c then
        let s2 := { s1 with
          mapcounts := s1.mapcounts.set pte.pfn ((c + (UINT32_MOD - 1)) % UINT32_MOD) }
        let ar := alloc_page sh s2 vpn restored
        let newPfn := ar.2.getD (UINT32_MOD - 1)
        let s4 := { ar.1 with tlb := ar.1.tlb.map (fun e : TlbEntry =>
          if e.valid && e.vpn == vpn then { e with pfn := newPfn } else e) }
        let s5 := { s4 with tlb := s4.tlb.map (fun e : TlbEntry =>
          if e.valid && e.vpn == vpn then { e with rw := rw } else e) }
        (s5, true)
      else
        let s2 := { s1 with tlb := s1.tlb.map (fun e =>
          if e.valid && e.vpn == vpn then { e with rw := rw } else e) }
        (s2, true)
    else (s, false)

/-- The COW downgrade of one source entry, src/pa3.c lines 297 to 300:
every entry whose rights include ACCESS_WRITE (the C checks no valid flag)
has its rights saved into private and replaced by ACCESS_READ. -/
def cowSavePte (e : Pte) : Pte :=
  if (e.rw &&& ACCESS_WRITE) ≠ 0 then { e with priv := e.rw, rw := ACCESS_READ } else e

/-- The COW downgrade applied to a whole directory. -/
def cowSaveDir (d : PteDirectory) : PteDirectory := d.map cowSavePte

/-- The COW downgrade applied to a whole page table; absent slots stay
absent and the child receives freshly allocated directories holding the
same values (value copy, no sharing of directory blocks). -/
def cowSaveTable (pt : Pagetable) : Pagetable := pt.map (fun slot => slot.map cowSaveDir)

/-- The mapcount pass of fork over one directory, src/pa3.c lines 314 to
317: each valid entry increments the count of the frame it maps. -/
def bumpDir (mc : List Nat) (d : PteDirectory) : List Nat :=
  d.foldl (fun m e =>
    if e.valid then m.set e.pfn ((nth m e.pfn 0 + 1) % UINT32_MOD) else m) mc

/-- The mapcount pass of fork over the whole child page table,
src/pa3.c lines 308 to 318. -/
def bumpTable (mc : List Nat) (pt : Pagetable) : List Nat :=
  pt.foldl (fun m slot => match slot with | none => m | some d => bumpDir m d) mc

/-- The wholesale TLB flush of switch_process, src/pa3.c lines 328 to 329. -/
def flushTlb (tlb : List TlbEntry) : List TlbEntry :=
  tlb.map (fun e => { e with valid := false })

/-- switch_process, src/pa3.c lines 264 to 330.  When a process with the
pid is found in the ready list the C code does NOT unlink it (there is no
list_del); it only appends the old current to the tail, repoints current
and ptbr, and flushes the TLB, so the found process stays in the list.
Otherwise fork: downgrade every writable source entry (saving its rights
into private), give the child a value copy of the downgraded table, bump
the mapcount of every frame mapped by a valid child entry, append the old
current (whose table was downgraded in place) to the ready list, make the
child current and flush the TLB. -/
def switch_process (s : State) (pid : Nat) : State :=
  match s.processes.find? (fun p => p.pid == pid) with
  | some next =>
    { current := next,
      processes := s.processes ++ [s.current],
      tlb := flushTlb s.tlb,
      mapcounts := s.mapcounts }
  | none =>
    let pt1 := cowSaveTable s.current.pagetable
    { current := { pid := pid, pagetable := pt1 },
      processes := s.processes ++ [{ s.current with pagetable := pt1 }],
      tlb := flushTlb s.tlb,
      mapcounts := bumpTable s.mapcounts pt1 }

/-- Modelled from the spec: the framework walk __translate (declared by the
harness, not part of src) per section 4.3: an absent directory or an
invalid entry faults, a valid entry whose rights mask is not a superset of
the request faults, otherwise the stored pfn is returned. -/
def __translate (sh : Nat) (s : State) (vpn rw : Nat) : Option Nat :=
  let vpn1 := vpn >>> sh
  let vpn2 := vpn % 2 ^ sh
  match nth s.current.pagetable vpn1 none with
  | none => none
  | some d =>
    let pte := nth d vpn2 pteNone
    if pte.valid && ((pte.rw &&& rw) == rw) then some pte.pfn else none

/-- Modelled from the spec: the initial system state, a single current
process with an empty page table, an empty ready list, an all-invalid TLB
and every frame reference count zero; n, t and f are the fixed system
parameters (outer slots, TLB capacity, frame count). -/
def initState (n t f : Nat) : State :=
  { current := { pid := 0, pagetable := List.replicate n none },
    processes := [],
    tlb := List.replicate t tlbNone,
    mapcounts := List.replicate f 0 }

/-- Whether the current page table holds a valid entry for vpn (the stated
precondition of free_page). -/
def entryValidB (sh : Nat) (s : State) (vpn : Nat) : Bool :=
  match nth s.current.pagetable (vpn >>> sh) none with
  | none => false
  | some d => (nth d (vpn % 2 ^ sh) pteNone).valid

/-- Modelled from the spec: one harness-driven operation of section 6.
The TLB lookup is pure, hence not a transition.  allocate_page is issued
for a vpn the walk does not currently translate, free_page only under its
stated precondition (a valid entry), handle_page_fault when both the TLB
and the walk miss, insert_tlb only to cache a successful walk, and
switch_process freely. -/
inductive Step (sh : Nat) : State → State → Prop
  | alloc (s : State) (vpn rw : Nat) (h : __translate sh s vpn rw = none) :
      Step sh s (alloc_page sh s vpn rw).1
  | free (s : State) (vpn : Nat) (h : entryValidB sh s vpn = true) :
      Step sh s (free_page sh s vpn)
  | fault (s : State) (vpn rw : Nat) (h1 : lookup_tlb s vpn rw = none)
      (h2 : __translate sh s vpn rw = none) :
      Step sh s (handle_page_fault sh s vpn rw).1
  | insert (s : State) (vpn rw pfn : Nat) (h1 : lookup_tlb s vpn rw = none)
      (h2 : __translate sh s vpn rw = some pfn) :
      Step sh s (insert_tlb s vpn rw pfn)
  | switch (s : State) (pid : Nat) : Step sh s (switch_process s pid)

/-- Reachability by any sequence of the harness-driven operations. -/
def Reaches (sh : Nat) (s t : State) : Prop := Relation.ReflTransGen (Step sh) s t

/-- How many valid entries of a directory map the frame f. -/
def countDir (d : PteDirectory) (f : Nat) : Nat :=
  (d.filter (fun e => e.valid && e.pfn == f)).length

/-- How many valid entries of a page table map the frame f. -/
def countTable (pt : Pagetable) (f : Nat) : Nat :=
  (pt.map (fun slot => match slot with | none => 0 | some d => countDir d f)).sum

/-- A state whose TLB caches vpn 5 with read-only rights at pfn 7. -/
def c1State : State :=
  { current := ⟨0, [none, none]⟩
    processes := []
    tlb := [⟨true, 5, ACCESS_READ, 7⟩, tlbNone, tlbNone, tlbNone]
    mapcounts := [0, 0] }

/-- A state holding an invalid entry for vpn 0 (directory present). -/
def c2State : State :=
  { current := ⟨0, [some [pteNone, pteNone], none]⟩
    processes := []
    tlb := [tlbNone, tlbNone]
    mapcounts := [0, 0] }

/-- A state with a COW-protected entry for vpn 0: rights read-only, backup
rights read and write, frame 0 with reference count 1, and a TLB entry
caching the read-only translation. -/
def c3State : State :=
  { current := ⟨0, [some [⟨true, ACCESS_READ, 0, 3⟩, pteNone], none]⟩
    processes := []
    tlb := [⟨true, 0, ACCESS_READ, 0⟩, tlbNone]
    mapcounts := [1, 0] }

/-- The c3State sharing variant: frame 0 has reference count 2 and frame 1
is free, so the COW fault must materialize a private copy. -/
def c3SharedState : State :=
  { current := ⟨0, [some [⟨true, ACCESS_READ, 0, 3⟩, pteNone], none]⟩
    processes := []
    tlb := [⟨true, 0, ACCESS_READ, 0⟩, tlbNone]
    mapcounts := [2, 0] }

/-- A state ready to fork: the current process has a writable valid entry
for vpn 0 at frame 0 and a read-only valid entry for vpn 1 at frame 1. -/
def c4State : State :=
  { current := ⟨7, [some [⟨true, 3, 0, 0⟩, ⟨true, ACCESS_READ, 1, 0⟩], none]⟩
    processes := []
    tlb := [tlbNone, tlbNone]
    mapcounts := [1, 1] }

/-- A state whose ready list holds a process with pid 1 while pid 0 runs. -/
def c5State : State :=
  { current := ⟨0, [none, none]⟩
    processes := [⟨1, [none, none]⟩]
    tlb := [⟨true, 0, ACCESS_READ, 0⟩, tlbNone]
    mapcounts := [0, 0] }

/-- A state with frame 0 taken and frame 1 free. -/
def c6State : State :=
  { current := ⟨0, [none, none]⟩
    processes := []
    tlb := [tlbNone, tlbNone]
    mapcounts := [1, 0] }

/-- A state with every frame taken (for the out-of-memory case). -/
def c6Full : State :=
  { current := ⟨0, [none, none]⟩
    processes := []
    tlb := [tlbNone, tlbNone]
    mapcounts := [1, 2] }

/-- A state with a single valid entry for vpn 0 on frame 0 (count 1) whose
directory will become empty on free, and a TLB entry for vpn 0. -/
def c7State : State :=
  { current := ⟨0, [some [⟨true, ACCESS_READ, 0, 0⟩, pteNone], none]⟩
    processes := []
    tlb := [⟨true, 0, ACCESS_READ, 0⟩, tlbNone]
    mapcounts := [1, 0] }

/-- Stage 1 of the consistency counter-trace: allocate vpn 0 writable. -/
def c8s1 : State := (alloc_page 1 (initState 2 4 2) 0 3).1

/-- Stage 2: fork to pid 1 (pid 1 is not in the ready list). -/
def c8s2 : State := switch_process c8s1 1

/-- Stage 3: the child walk succeeds read-only and is cached in the TLB. -/
def c8s3 : State := insert_tlb c8s2 0 1 0

/-- Stage 4: the child frees vpn 0 while the parent still maps frame 0. -/
def c8s4 : State := free_page 1 c8s3 0

/-- A two-process state after a fork: the ready list holds the parent, the
current child and the parent both map vpn 0 read-only to frame 0 with the
write rights saved in the backup, and frame 0 has reference count 1 (the
exclusive case of the claim). -/
def c9State : State :=
  { current := ⟨1, [some [⟨true, ACCESS_READ, 0, 3⟩, pteNone], none]⟩
    processes := [⟨0, [some [⟨true, ACCESS_READ, 0, 3⟩, pteNone], none]⟩]
    tlb := [tlbNone, tlbNone]
    mapcounts := [1, 0] }

/-- A state with a valid read-only entry for vpn 0 and no COW backup: a
write request is a true protection violation. -/
def c10State : State :=
  { current := ⟨0, [some [⟨true, ACCESS_READ, 0, 0⟩, pteNone], none]⟩
    processes := []
    tlb := [⟨true, 0, ACCESS_READ, 0⟩, tlbNone]
    mapcounts := [1, 0] }

/-! Helper lemmas about list indexing, the loop scans and the operations. -/

theorem nth_nil {α : Type _} (i : Nat) (d : α) : nth ([] : List α) i d = d := rfl

theorem nth_cons_zero {α : Type _} (a : α) (l : List α) (d : α) :
    nth (a :: l) 0 d = a := rfl

theorem nth_cons_succ {α : Type _} (a : α) (l : List α) (i : Nat) (d : α) :
    nth (a :: l) (i + 1) d = nth l i d := rfl

theorem nth_set_self {α : Type _} (l : List α) (i : Nat) (a d : α)
    (h : i < l.length) : nth (l.set i a) i d = a := by
  induction l generalizing i with
  | nil => simp at h
  | cons x xs ih =>
    cases i with
    | zero => rfl
    | succ n =>
      simp only [List.set, nth_cons_succ]
      exact ih n (by simpa using h)

theorem nth_set_ne {α : Type _} (l : List α) (i j : Nat) (a d : α)
    (h : i ≠ j) : nth (l.set i a) j d = nth l j d := by
  induction l generalizing i j with
  | nil => rfl
  | cons x xs ih =>
    cases i with
    | zero =>
      cases j with
      | zero => exact absurd rfl h
      | succ m => rfl
    | succ n =>
      cases j with
      | zero => rfl
      | succ m =>
        simp only [List.set, nth_cons_succ]
        exact ih n m (fun hh => h (by omega))

theorem nth_map {α β : Type _} (f : α → β) (l : List α) (i : Nat) (d : α) (d2 : β)
    (h : i < l.length) : nth (l.map f) i d2 = f (nth l i d) := by
  induction l generalizing i with
  | nil => simp at h
  | cons x xs ih =>
    cases i with
    | zero => rfl
    | succ n =>
      simp only [List.map, nth_cons_succ]
      exact ih n (by simpa using h)

theorem nth_of_le {α : Type _} (l : List α) (i : Nat) (d : α)
    (h : l.length ≤ i) : nth l i d = d := by
  induction l generalizing i with
  | nil => rfl
  | cons x xs ih =>
    cases i with
    | zero => simp at h
    | succ n =>
      simp only [nth_cons_succ]
      exact ih n (by simpa using h)

theorem lt_of_nth_eq_some {α : Type _} (l : List (Option α)) (i : Nat) (a : α)
    (h : nth l i none = some a) : i < l.length := by
  by_contra hc
  rw [nth_of_le l i none (by omega)] at h
  exact Option.noConfusion h

theorem firstIdx_eq_some_of {α : Type _} (p : α → Bool) (l : List α) (i : Nat) (d : α)
    (hi : i < l.length) (hp : p (nth l i d) = true)
    (hmin : ∀ j, j < i → p (nth l j d) = false) :
    firstIdx p l = some i := by
  induction l generalizing i with
  | nil => simp at hi
  | cons x xs ih =>
    cases i with
    | zero =>
      rw [nth_cons_zero] at hp
      simp [firstIdx, hp]
    | succ n =>
      have hx : p x = false := by
        have := hmin 0 (Nat.succ_pos n)
        rwa [nth_cons_zero] at this
      have hrec := ih n (by simpa using hi) (by rwa [nth_cons_succ] at hp)
        (fun j hj => by
          have := hmin (j + 1) (by omega)
          rwa [nth_cons_succ] at this)
      simp [firstIdx, hx, hrec]

theorem firstIdx_eq_none_of {α : Type _} (p : α → Bool) (l : List α) (d : α)
    (h : ∀ i, i < l.length → p (nth l i d) = false) :
    firstIdx p l = none := by
  induction l with
  | nil => rfl
  | cons x xs ih =>
    have hx : p x = false := by
      have := h 0 (by simp)
      rwa [nth_cons_zero] at this
    have hrec := ih (fun i hi => by
      have := h (i + 1) (by simpa using hi)
      rwa [nth_cons_succ] at this)
    simp [firstIdx, hx, hrec]

theorem alloc_page_oom (sh : Nat) (s : State) (vpn rw : Nat)
    (h : ∀ q, q < s.mapcounts.length → nth s.mapcounts q 0 ≠ 0) :
    alloc_page sh s vpn rw = (s, none) := by
  unfold alloc_page
  rw [firstIdx_eq_none_of (fun c => c == 0) s.mapcounts 0
    (fun i hi => by simpa using h i hi)]

theorem alloc_page_success (sh : Nat) (s : State) (vpn rw p : Nat)
    (hp : p < s.mapcounts.length) (hp0 : nth s.mapcounts p 0 = 0)
    (hmin : ∀ q, q < p → nth s.mapcounts q 0 ≠ 0) :
    alloc_page sh s vpn rw =
      ({ s with
          mapcounts := s.mapcounts.set p 1,
          current := { s.current with
            pagetable := allocWrite sh s.current.pagetable vpn rw p } },
        some p) := by
  unfold alloc_page
  rw [firstIdx_eq_some_of (fun c => c == 0) s.mapcounts p 0 hp (by simp [hp0])
    (fun j hj => by simpa using hmin j hj)]
  simp only [hp0]
  norm_num [UINT32_MOD]

theorem alloc_page_processes (sh : Nat) (s : State) (vpn rw : Nat) :
    (alloc_page sh s vpn rw).1.processes = s.processes := by
  unfold alloc_page
  cases firstIdx (fun c => c == 0) s.mapcounts <;> rfl

theorem alloc_page_tlb (sh : Nat) (s : State) (vpn rw : Nat) :
    (alloc_page sh s vpn rw).1.tlb = s.tlb := by
  unfold alloc_page
  cases firstIdx (fun c => c == 0) s.mapcounts <;> rfl

theorem alloc_page_pid (sh : Nat) (s : State) (vpn rw : Nat) :
    (alloc_page sh s vpn rw).1.current.pid = s.current.pid := by
  unfold alloc_page
  cases firstIdx (fun c => c == 0) s.mapcounts <;> rfl

theorem handle_page_fault_processes (sh : Nat) (s : State) (vpn rw : Nat) :
    (handle_page_fault sh s vpn rw).1.processes = s.processes := by
  cases hslot : nth s.current.pagetable (vpn >>> sh) none with
  | none => simp [handle_page_fault, hslot]
  | some d =>
    simp only [handle_page_fault, hslot]
    split
    · rfl
    · split
      · split
        · simp [alloc_page_processes]
        · rfl
      · rfl

theorem nth_replicate {α : Type _} (n : Nat) (a : α) (j : Nat) :
    nth (List.replicate n a) j a = a := by
  induction n generalizing j with
  | zero => rfl
  | succ m ih =>
    cases j with
    | zero => rfl
    | succ i => simpa [List.replicate, nth_cons_succ] using ih i

theorem handle_page_fault_cow (sh : Nat) (s : State) (vpn rw : Nat)
    (d : PteDirectory) (hd : nth s.current.pagetable (vpn >>> sh) none = some d)
    (hv : (nth d (vpn % 2 ^ sh) pteNone).valid = true)
    (hdis : ((nth d (vpn % 2 ^ sh) pteNone).rw &&& rw) = 0)
    (hbk : ((nth d (vpn % 2 ^ sh) pteNone).priv &&& rw) ≠ 0) :
    handle_page_fault sh s vpn rw =
      (let pte := nth d (vpn % 2 ^ sh) pteNone
       let s1 : State := { s with current := { s.current with
         pagetable := s.current.pagetable.set (vpn >>> sh)
           (some (d.set (vpn % 2 ^ sh) { pte with rw := pte.priv, priv := 0 })) } }
       let c := nth s.mapcounts pte.pfn 0
       if 1 < c then
         let s2 : State := { s1 with
           mapcounts := s1.mapcounts.set pte.pfn ((c + (UINT32_MOD - 1)) % UINT32_MOD) }
         let ar := alloc_page sh s2 vpn pte.priv
         let newPfn := ar.2.getD (UINT32_MOD - 1)
         let tlb4 := ar.1.tlb.map (fun e : TlbEntry =>
           if e.valid && e.vpn == vpn then { e with pfn := newPfn } else e)
         let tlb5 := tlb4.map (fun e : TlbEntry =>
           if e.valid && e.vpn == vpn then { e with rw := rw } else e)
         ({ ar.1 with tlb := tlb5 }, true)
       else
         ({ s1 with tlb := s1.tlb.map (fun e : TlbEntry =>
             if e.valid && e.vpn == vpn then { e with rw := rw } else e) }, true)) := by
  have hcond : ((nth d (vpn % 2 ^ sh) pteNone).rw &&& rw) = 0 ∧
      ((nth d (vpn % 2 ^ sh) pteNone).priv &&& rw) ≠ 0 := ⟨hdis, hbk⟩
  simp only [handle_page_fault, hd, hv, Bool.not_true, Bool.false_eq_true, if_false,
    if_pos hcond]

theorem bumpDir_length (d : PteDirectory) (mc : List Nat) :
    (bumpDir mc d).length = mc.length := by
  induction d generalizing mc with
  | nil => rfl
  | cons e d ih =>
    simp only [bumpDir, List.foldl] at *
    by_cases hv : e.valid <;> simp [hv, ih, List.length_set]

theorem bumpTable_length (pt : Pagetable) (mc : List Nat) :
    (bumpTable mc pt).length = mc.length := by
  induction pt generalizing mc with
  | nil => rfl
  | cons slot pt ih =>
    cases slot with
    | none => simpa [bumpTable, List.foldl] using ih mc
    | some d =>
      simp only [bumpTable, List.foldl] at *
      rw [ih, bumpDir_length]

theorem bumpDir_nth (d : PteDirectory) (mc : List Nat) (f : Nat)
    (hf : f < mc.length)
    (hw : nth mc f 0 + countDir d f < UINT32_MOD) :
    nth (bumpDir mc d) f 0 = nth mc f 0 + countDir d f := by
  induction d generalizing mc with
  | nil => simp [bumpDir, countDir]
  | cons e d ih =>
    by_cases hv : e.valid
    · by_cases hpf : e.pfn = f
      · have hcount : countDir (e :: d) f = countDir d f + 1 := by
          simp [countDir, List.filter_cons, hv, hpf, beq_iff_eq]
        have hm : (nth mc f 0 + 1) % UINT32_MOD = nth mc f 0 + 1 :=
          Nat.mod_eq_of_lt (by rw [hcount] at hw; omega)
        have hset : nth (mc.set e.pfn ((nth mc e.pfn 0 + 1) % UINT32_MOD)) f 0
            = nth mc f 0 + 1 := by
          rw [hpf, hm]
          exact nth_set_self mc f _ 0 hf
        have hlen : f < (mc.set e.pfn ((nth mc e.pfn 0 + 1) % UINT32_MOD)).length := by
          simpa [List.length_set] using hf
        have hrec := ih (mc.set e.pfn ((nth mc e.pfn 0 + 1) % UINT32_MOD)) hlen
          (by rw [hset]; rw [hcount] at hw; omega)
        have hstep : bumpDir mc (e :: d)
            = bumpDir (mc.set e.pfn ((nth mc e.pfn 0 + 1) % UINT32_MOD)) d := by
          simp [bumpDir, List.foldl, hv]
        rw [hstep, hrec, hset, hcount]
        omega
      · have hcount : countDir (e :: d) f = countDir d f := by
          simp [countDir, List.filter_cons, hv, hpf, beq_iff_eq]
        have hset : nth (mc.set e.pfn ((nth mc e.pfn 0 + 1) % UINT32_MOD)) f 0
            = nth mc f 0 := nth_set_ne mc e.pfn f _ 0 hpf
        have hlen : f < (mc.set e.pfn ((nth mc e.pfn 0 + 1) % UINT32_MOD)).length := by
          simpa [List.length_set] using hf
        have hrec := ih (mc.set e.pfn ((nth mc e.pfn 0 + 1) % UINT32_MOD)) hlen
          (by rw [hset]; rw [hcount] at hw; omega)
        have hstep : bumpDir mc (e :: d)
            = bumpDir (mc.set e.pfn ((nth mc e.pfn 0 + 1) % UINT32_MOD)) d := by
          simp [bumpDir, List.foldl, hv]
        rw [hstep, hrec, hset, hcount]
    · have hcount : countDir (e :: d) f = countDir d f := by
        simp [countDir, List.filter_cons, hv]
      have hstep : bumpDir mc (e :: d) = bumpDir mc d := by
        simp [bumpDir, List.foldl, hv]
      rw [hstep, ih mc hf (by rw [hcount] at hw; omega), hcount]

theorem countTable_cons (slot : Option PteDirectory) (pt : Pagetable) (f : Nat) :
    countTable (slot :: pt) f =
      (match slot with | none => 0 | some d => countDir d f) + countTable pt f := by
  cases slot <;> simp [countTable]

theorem bumpTable_nth (pt : Pagetable) (mc : List Nat) (f : Nat)
    (hf : f < mc.length)
    (hw : nth mc f 0 + countTable pt f < UINT32_MOD) :
    nth (bumpTable mc pt) f 0 = nth mc f 0 + countTable pt f := by
  induction pt generalizing mc with
  | nil => simp [bumpTable, countTable]
  | cons slot pt ih =>
    rw [countTable_cons] at *
    cases slot with
    | none =>
      simp only [bumpTable, List.foldl] at *
      rw [ih mc hf (by omega)]
      omega
    | some d =>
      simp only [bumpTable, List.foldl] at *
      have hlen : f < (bumpDir mc d).length := by simpa [bumpDir_length] using hf
      have hdir := bumpDir_nth d mc f hf (by omega)
      rw [ih (bumpDir mc d) hlen (by rw [hdir]; omega), hdir]
      omega

/-! Claim theorems. -/

/-- C1: code-bug evidence.  With vpn 5 cached read-only (rights 1) at pfn 7,
lookup_tlb for write rights (2) still returns the cached pfn, although the
cached rights mask is not a superset of the requested one: the C expression
tlb[i].rw & rw == rw parses as tlb[i].rw & (rw == rw) and never compares
the cached rights against the request, so an entry with insufficient
rights hits instead of missing. -/
theorem C1_lookup_hits_despite_insufficient_rights :
    lookup_tlb c1State 5 ACCESS_WRITE = some 7 ∧
    ((nth c1State.tlb 0 tlbNone).rw &&& ACCESS_WRITE) ≠ ACCESS_WRITE := by
  exact ⟨by decide, by decide⟩

/-- C2: code-bug evidence.  On an absent directory (the initial empty
state) and on a present directory with an invalid entry, handle_page_fault
returns true (success) while changing nothing, where the claim, the spec
and the function doc require reporting failure so the harness can resolve
a genuine fault by allocation. -/
theorem C2_fault_reports_success_on_unmapped :
    handle_page_fault 1 (initState 2 4 2) 0 ACCESS_READ = (initState 2 4 2, true) ∧
    handle_page_fault 1 c2State 0 ACCESS_READ = (c2State, true) := by
  exact ⟨rfl, rfl⟩

/-- C5: code-bug evidence.  Switching to the existing pid 1 does append the
old current (pid 0) to the tail and makes pid 1 current with the TLB
flushed, but the found process is never unlinked from the ready list (the
C code has no list_del), so the list still contains the new current: the
pids on the ready list afterwards are 1 and 0, not just 0. -/
theorem C5_switch_leaves_next_on_ready_list :
    (switch_process c5State 1).current.pid = 1 ∧
    (switch_process c5State 1).processes.map Process.pid = [1, 0] ∧
    (switch_process c5State 1).tlb = [⟨false, 0, ACCESS_READ, 0⟩, tlbNone] := by
  exact ⟨rfl, rfl, rfl⟩

/-- C7: code-bug evidence.  Freeing the only valid entry of a directory
decrements the frame count from 1 to 0, marks the entry invalid and
invalidates the TLB entry for the vpn (the count reached zero), but the
directory slot does not become absent: the C code frees the block without
clearing the slot pointer, so the slot still holds a (dangling) directory
afterwards. -/
theorem C7_free_page_slot_not_released :
    free_page 1 c7State 0 =
      { current := ⟨0, [some [⟨false, ACCESS_READ, 0, 0⟩, pteNone], none]⟩
        processes := []
        tlb := [⟨false, 0, ACCESS_READ, 0⟩, tlbNone]
        mapcounts := [0, 0] } ∧
    nth (free_page 1 c7State 0).current.pagetable 0 none ≠ none := by
  exact ⟨by decide, by decide⟩

/-- C10: whenever handle_page_fault reports failure (false), the resulting
state is exactly the input state: no page table, TLB or reference-count
mutation happened. -/
theorem C10_fault_failure_no_mutation (sh : Nat) (s : State) (vpn rw : Nat)
    (h : (handle_page_fault sh s vpn rw).2 = false) :
    (handle_page_fault sh s vpn rw).1 = s := by
  cases hslot : nth s.current.pagetable (vpn >>> sh) none with
  | none => simp [handle_page_fault, hslot]
  | some d =>
    by_cases hv : (nth d (vpn % 2 ^ sh) pteNone).valid = true
    · by_cases hcond : ((nth d (vpn % 2 ^ sh) pteNone).rw &&& rw) = 0 ∧
          ((nth d (vpn % 2 ^ sh) pteNone).priv &&& rw) ≠ 0
      · exfalso
        simp [handle_page_fault, hslot, hv, hcond, apply_ite] at h
      · simp [handle_page_fault, hslot, hv, hcond]
    · simp [handle_page_fault, hslot, hv]

/-- C10 witness: a concrete protection violation (valid read-only entry,
no backup, write request) reports failure and leaves the state intact. -/
theorem C10_witness :
    (handle_page_fault 1 c10State 0 ACCESS_WRITE).1 = c10State :=
  C10_fault_failure_no_mutation 1 c10State 0 ACCESS_WRITE (by decide)

/-- C8: code-bug evidence.  A harness-respecting trace from the empty
state (allocate vpn 0 writable, fork to pid 1, cache the successful
read-only child walk in the TLB, then free vpn 0 in the child while the
parent still references frame 0) reaches a state whose TLB still holds a
valid entry translating vpn 0 to pfn 0 with read rights, while a direct
page table walk for vpn 0 with read rights faults: the claimed invariant
fails because free_page only invalidates the TLB entry when the frame
count reaches zero, even though the CURRENT process no longer maps the
page. -/
theorem C8_tlb_pagetable_inconsistency_reachable :
    Reaches 1 (initState 2 4 2) c8s4 ∧
    nth c8s4.tlb 0 tlbNone = ⟨true, 0, ACCESS_READ, 0⟩ ∧
    __translate 1 c8s4 0 ACCESS_READ = none := by
  refine ⟨?_, by decide, by decide⟩
  have h1 : Step 1 (initState 2 4 2) c8s1 := Step.alloc _ 0 3 (by decide)
  have h2 : Step 1 c8s1 c8s2 := Step.switch _ 1
  have h3 : Step 1 c8s2 c8s3 := Step.insert _ 0 ACCESS_READ 0 (by decide) (by decide)
  have h4 : Step 1 c8s3 c8s4 := Step.free _ 0 (by decide)
  exact Relation.ReflTransGen.head h1 (Relation.ReflTransGen.head h2
    (Relation.ReflTransGen.head h3 (Relation.ReflTransGen.single h4)))

/-- C9: when the current process resolves a write fault on a vpn it maps
read-only with a write-capable COW backup, the ready list, and with it the
sibling process and its mapping for that vpn, is untouched; and when the
mapped frame's reference count was exactly 1 before the fault, the whole
reference-count table is unchanged, so no new frame was allocated; the
fault is reported as handled. -/
theorem C9_cow_write_fault_isolated (sh : Nat) (s : State) (vpn : Nat)
    (d : PteDirectory) (hd : nth s.current.pagetable (vpn >>> sh) none = some d)
    (hv : (nth d (vpn % 2 ^ sh) pteNone).valid = true)
    (hro : (nth d (vpn % 2 ^ sh) pteNone).rw = ACCESS_READ)
    (hbk : ((nth d (vpn % 2 ^ sh) pteNone).priv &&& ACCESS_WRITE) ≠ 0)
    (k : Nat) (other : Process) (hk : nth s.processes k ⟨0, []⟩ = other) :
    (handle_page_fault sh s vpn ACCESS_WRITE).2 = true ∧
    (handle_page_fault sh s vpn ACCESS_WRITE).1.processes = s.processes ∧
    nth (handle_page_fault sh s vpn ACCESS_WRITE).1.processes k ⟨0, []⟩ = other ∧
    (nth s.mapcounts (nth d (vpn % 2 ^ sh) pteNone).pfn 0 = 1 →
      (handle_page_fault sh s vpn ACCESS_WRITE).1.mapcounts = s.mapcounts) := by
  have hdis : ((nth d (vpn % 2 ^ sh) pteNone).rw &&& ACCESS_WRITE) = 0 := by
    rw [hro]; rfl
  have heq := handle_page_fault_cow sh s vpn ACCESS_WRITE d hd hv hdis hbk
  refine ⟨?_, handle_page_fault_processes sh s vpn ACCESS_WRITE, ?_, ?_⟩
  · rw [heq]
    dsimp only
    split <;> rfl
  · rw [handle_page_fault_processes sh s vpn ACCESS_WRITE]
    exact hk
  · intro hc1
    rw [heq]
    dsimp only
    rw [if_neg (by rw [hc1]; omega)]

/-- C9 witness: in the concrete post-fork state c9State (parent on the
ready list, both processes mapping vpn 0 read-only to frame 0 with backup
rights 3, count 1), the child write fault is handled, the ready list is
unchanged, and no reference count changes. -/
theorem C9_witness :
    (handle_page_fault 1 c9State 0 ACCESS_WRITE).2 = true ∧
    (handle_page_fault 1 c9State 0 ACCESS_WRITE).1.processes = c9State.processes ∧
    (handle_page_fault 1 c9State 0 ACCESS_WRITE).1.mapcounts = c9State.mapcounts := by
  have h := C9_cow_write_fault_isolated 1 c9State 0
    [⟨true, ACCESS_READ, 0, 3⟩, pteNone] (by decide) (by decide) (by decide)
    (by decide) 0 ⟨0, [some [⟨true, ACCESS_READ, 0, 3⟩, pteNone], none]⟩ (by decide)
  exact ⟨h.1, h.2.1, h.2.2.2 (by decide)⟩

/-- C6: alloc_page in any state: when every frame has a nonzero reference
count it fails returning none and changes nothing; otherwise, for the
lowest-numbered frame p with count zero, it returns p, sets the count of p
to 1 leaving every other count alone, leaves the TLB, the ready list and
the pid alone, leaves every other directory slot alone, and makes the
entry for vpn valid with the given rights, frame p and an empty backup;
when the directory slot was absent it is materialized with every other
entry invalid, and when it was present every other entry is unchanged.
Because the statement holds at every state it holds after all sequences
of frees and allocations. -/
theorem C6_alloc_page_lowest_free (sh : Nat) (s : State) (vpn rw : Nat)
    (h1 : vpn >>> sh < s.current.pagetable.length)
    (hdl : ∀ d0, nth s.current.pagetable (vpn >>> sh) none = some d0 →
      vpn % 2 ^ sh < d0.length) :
    ((∀ q, q < s.mapcounts.length → nth s.mapcounts q 0 ≠ 0) →
      alloc_page sh s vpn rw = (s, none)) ∧
    (∀ p, p < s.mapcounts.length → nth s.mapcounts p 0 = 0 →
      (∀ q, q < p → nth s.mapcounts q 0 ≠ 0) →
      (alloc_page sh s vpn rw).2 = some p ∧
      (alloc_page sh s vpn rw).1.mapcounts = s.mapcounts.set p 1 ∧
      (alloc_page sh s vpn rw).1.tlb = s.tlb ∧
      (alloc_page sh s vpn rw).1.processes = s.processes ∧
      (alloc_page sh s vpn rw).1.current.pid = s.current.pid ∧
      (∀ i, i ≠ vpn >>> sh →
        nth (alloc_page sh s vpn rw).1.current.pagetable i none
          = nth s.current.pagetable i none) ∧
      (∃ d1, nth (alloc_page sh s vpn rw).1.current.pagetable (vpn >>> sh) none
          = some d1 ∧
        nth d1 (vpn % 2 ^ sh) pteNone = ⟨true, rw, p, 0⟩ ∧
        (nth s.current.pagetable (vpn >>> sh) none = none →
          ∀ j, j ≠ vpn % 2 ^ sh → nth d1 j pteNone = pteNone) ∧
        (∀ d0, nth s.current.pagetable (vpn >>> sh) none = some d0 →
          ∀ j, j ≠ vpn % 2 ^ sh → nth d1 j pteNone = nth d0 j pteNone))) := by
  constructor
  · intro hfull
    exact alloc_page_oom sh s vpn rw hfull
  · intro p hp hp0 hmin
    rw [alloc_page_success sh s vpn rw p hp hp0 hmin]
    refine ⟨rfl, rfl, rfl, rfl, rfl, ?_, ?_⟩
    · intro i hi
      show nth (allocWrite sh s.current.pagetable vpn rw p) i none
        = nth s.current.pagetable i none
      unfold allocWrite
      exact nth_set_ne _ _ _ _ _ (fun hh => hi hh.symm)
    · show ∃ d1, nth (allocWrite sh s.current.pagetable vpn rw p) (vpn >>> sh) none
          = some d1 ∧ _
      cases hslot : nth s.current.pagetable (vpn >>> sh) none with
      | none =>
        have hAW : allocWrite sh s.current.pagetable vpn rw p
            = s.current.pagetable.set (vpn >>> sh)
              (some ((List.replicate (2 ^ sh) pteNone).set (vpn % 2 ^ sh)
                ⟨true, rw, p, 0⟩)) := by
          simp only [allocWrite, hslot]
        rw [hAW]
        refine ⟨_, nth_set_self _ _ _ _ h1, ?_, ?_, ?_⟩
        · exact nth_set_self _ _ _ _ (by
            rw [List.length_replicate]
            exact Nat.mod_lt vpn (Nat.pos_pow_of_pos sh (by norm_num)))
        · intro _ j hj
          rw [nth_set_ne _ _ _ _ _ (fun hh => hj hh.symm)]
          exact nth_replicate _ _ _
        · intro d0 hd0
          exact Option.noConfusion hd0
      | some d0 =>
        have hAW : allocWrite sh s.current.pagetable vpn rw p
            = s.current.pagetable.set (vpn >>> sh)
              (some (d0.set (vpn % 2 ^ sh) ⟨true, rw, p, 0⟩)) := by
          simp only [allocWrite, hslot]
        rw [hAW]
        refine ⟨_, nth_set_self _ _ _ _ h1, ?_, ?_, ?_⟩
        · exact nth_set_self _ _ _ _ (hdl d0 hslot)
        · intro hnone
          exact Option.noConfusion hnone
        · intro d2 hd2 j hj
          cases hd2
          exact nth_set_ne _ _ _ _ _ (fun hh => hj hh.symm)

/-- C6 witness: in a state where frame 0 is taken and frame 1 free, the
allocation of vpn 0 writable returns frame 1 and sets its count to 1, and
in a state with every frame taken it fails leaving the state unchanged. -/
theorem C6_witness :
    (alloc_page 1 c6State 0 3).2 = some 1 ∧
    (alloc_page 1 c6State 0 3).1.mapcounts = c6State.mapcounts.set 1 1 ∧
    alloc_page 1 c6Full 0 3 = (c6Full, none) := by
  have h := (C6_alloc_page_lowest_free 1 c6State 0 3 (by decide)
    (fun d0 hd0 => Option.noConfusion hd0)).2 1 (by decide) (by decide)
    (fun q hq => by
      have hq0 : q = 0 := by omega
      rw [hq0]
      decide)
  have h2 := (C6_alloc_page_lowest_free 1 c6Full 0 3 (by decide)
    (fun d0 hd0 => Option.noConfusion hd0)).1
    (fun q hq => by
      have hlen : c6Full.mapcounts.length = 2 := rfl
      have hq2 : q = 0 ∨ q = 1 := by omega
      cases hq2 with
      | inl h0 => rw [h0]; decide
      | inr h1 => rw [h1]; decide)
  exact ⟨h.1, h.2.1, h2⟩

/-- C3 counterexample: in c3State (valid entry for vpn 0, rights read-only,
backup 3, count 1, TLB entry present) the write fault restores the entry
rights to 3 but sets the TLB entry rights to the REQUESTED 2, so the TLB
entry does not end with rights equal to the restored value as the claim
states. -/
theorem C3_counterexample :
    (handle_page_fault 1 c3State 0 ACCESS_WRITE).2 = true ∧
    (handle_page_fault 1 c3State 0 ACCESS_WRITE).1.current.pagetable
      = [some [⟨true, 3, 0, 0⟩, pteNone], none] ∧
    (handle_page_fault 1 c3State 0 ACCESS_WRITE).1.tlb
      = [⟨true, 0, ACCESS_WRITE, 0⟩, tlbNone] ∧
    (nth (handle_page_fault 1 c3State 0 ACCESS_WRITE).1.tlb 0 tlbNone).rw ≠ 3 := by
  exact ⟨by decide, by decide, by decide, by decide⟩

/-- C3 (amended): for every state with a valid entry for vpn whose current
rights are disjoint from the requested rights and whose backup intersects
the requested rights (for a single access bit this is exactly: the backup
covers the request and the current rights do not), handle_page_fault
restores the entry rights from the backup and clears the backup; when the
frame reference count exceeds one it decrements that count and allocates
the lowest-numbered then-free frame p for vpn with the restored rights,
repointing the entry and every valid TLB entry for vpn at p; when the
count is at most one the entry is unlocked in place and the counts are
untouched; in both cases every valid TLB entry for vpn ends with its
rights equal to the REQUESTED rights (not the restored backup value), the
ready list, the pid and all other slots and entries are unchanged, and the
call reports success. -/
theorem C3_cow_resolution (sh : Nat) (s : State) (vpn rw : Nat)
    (d : PteDirectory) (pte : Pte) (c p : Nat)
    (h1 : vpn >>> sh < s.current.pagetable.length)
    (hd : nth s.current.pagetable (vpn >>> sh) none = some d)
    (h2 : vpn % 2 ^ sh < d.length)
    (hpte : nth d (vpn % 2 ^ sh) pteNone = pte)
    (hv : pte.valid = true)
    (hdis : (pte.rw &&& rw) = 0)
    (hbk : (pte.priv &&& rw) ≠ 0)
    (hc : nth s.mapcounts pte.pfn 0 = c)
    (hc32 : c < UINT32_MOD)
    (hP : 1 < c → p < s.mapcounts.length ∧
      nth (s.mapcounts.set pte.pfn (c - 1)) p 0 = 0 ∧
      (∀ q, q < p → nth (s.mapcounts.set pte.pfn (c - 1)) q 0 ≠ 0)) :
    (handle_page_fault sh s vpn rw).2 = true ∧
    (handle_page_fault sh s vpn rw).1.processes = s.processes ∧
    (handle_page_fault sh s vpn rw).1.current.pid = s.current.pid ∧
    (∀ i, i ≠ vpn >>> sh →
      nth (handle_page_fault sh s vpn rw).1.current.pagetable i none
        = nth s.current.pagetable i none) ∧
    (∃ d1, nth (handle_page_fault sh s vpn rw).1.current.pagetable (vpn >>> sh) none
        = some d1 ∧
      nth d1 (vpn % 2 ^ sh) pteNone
        = { valid := true, rw := pte.priv, pfn := if 1 < c then p else pte.pfn,
            priv := 0 } ∧
      (∀ j, j ≠ vpn % 2 ^ sh → nth d1 j pteNone = nth d j pteNone)) ∧
    (∀ t, t < s.tlb.length →
      nth (handle_page_fault sh s vpn rw).1.tlb t tlbNone
        = (let e := nth s.tlb t tlbNone
           if e.valid && e.vpn == vpn then
             { e with rw := rw, pfn := if 1 < c then p else e.pfn }
           else e)) ∧
    (1 < c → (handle_page_fault sh s vpn rw).1.mapcounts
        = (s.mapcounts.set pte.pfn (c - 1)).set p 1) ∧
    (¬ 1 < c → (handle_page_fault sh s vpn rw).1.mapcounts = s.mapcounts) := by
  subst hpte
  subst hc
  have heq := handle_page_fault_cow sh s vpn rw d hd hv hdis hbk
  by_cases hcc : 1 < nth s.mapcounts (nth d (vpn % 2 ^ sh) pteNone).pfn 0
  · have hP2 := hP hcc
    have hdec : (nth s.mapcounts (nth d (vpn % 2 ^ sh) pteNone).pfn 0 + (UINT32_MOD - 1))
        % UINT32_MOD = nth s.mapcounts (nth d (vpn % 2 ^ sh) pteNone).pfn 0 - 1 := by
      unfold UINT32_MOD at hc32 ⊢
      omega
    have halloc := alloc_page_success sh
      { current :=
          { pid := s.current.pid,
            pagetable := s.current.pagetable.set (vpn >>> sh)
              (some (d.set (vpn % 2 ^ sh)
                { nth d (vpn % 2 ^ sh) pteNone with
                  rw := (nth d (vpn % 2 ^ sh) pteNone).priv, priv := 0 })) },
        processes := s.processes, tlb := s.tlb,
        mapcounts := s.mapcounts.set (nth d (vpn % 2 ^ sh) pteNone).pfn
          (nth s.mapcounts (nth d (vpn % 2 ^ sh) pteNone).pfn 0 - 1) }
      vpn ((nth d (vpn % 2 ^ sh) pteNone).priv) p
      (by simpa [List.length_set] using hP2.1) hP2.2.1 hP2.2.2
    have hAW2 : allocWrite sh
        (s.current.pagetable.set (vpn >>> sh)
          (some (d.set (vpn % 2 ^ sh)
            { nth d (vpn % 2 ^ sh) pteNone with
                rw := (nth d (vpn % 2 ^ sh) pteNone).priv, priv := 0 })))
        vpn ((nth d (vpn % 2 ^ sh) pteNone).priv) p
        = s.current.pagetable.set (vpn >>> sh)
          (some (d.set (vpn % 2 ^ sh)
            ⟨true, (nth d (vpn % 2 ^ sh) pteNone).priv, p, 0⟩)) := by
      unfold allocWrite
      dsimp only
      rw [nth_set_self _ _ _ _ h1]
      dsimp only
      rw [List.set_set, List.set_set]
    have hres : handle_page_fault sh s vpn rw =
        ({ current :=
             { pid := s.current.pid,
               pagetable := s.current.pagetable.set (vpn >>> sh)
                 (some (d.set (vpn % 2 ^ sh)
                   ⟨true, (nth d (vpn % 2 ^ sh) pteNone).priv, p, 0⟩)) },
           processes := s.processes,
           tlb := (s.tlb.map (fun e : TlbEntry =>
               if e.valid && e.vpn == vpn then { e with pfn := p } else e)).map
             (fun e : TlbEntry =>
               if e.valid && e.vpn == vpn then { e with rw := rw } else e),
           mapcounts := (s.mapcounts.set (nth d (vpn % 2 ^ sh) pteNone).pfn
             (nth s.mapcounts (nth d (vpn % 2 ^ sh) pteNone).pfn 0 - 1)).set p 1 },
          true) := by
      rw [heq]
      dsimp only
      rw [if_pos hcc, hdec, halloc]
      dsimp only [Option.getD]
      rw [hAW2]
    refine ⟨by rw [hres], by rw [hres], by rw [hres], ?_, ?_, ?_, ?_, ?_⟩
    · intro i hi
      rw [hres]
      exact nth_set_ne _ _ _ _ _ (fun hh => hi hh.symm)
    · rw [hres]
      refine ⟨d.set (vpn % 2 ^ sh) ⟨true, (nth d (vpn % 2 ^ sh) pteNone).priv, p, 0⟩,
        nth_set_self _ _ _ _ h1, ?_, ?_⟩
      · rw [if_pos hcc]
        exact nth_set_self _ _ _ _ h2
      · intro j hj
        exact nth_set_ne _ _ _ _ _ (fun hh => hj hh.symm)
    · intro t ht
      rw [hres]
      dsimp only
      rw [nth_map _ _ t tlbNone tlbNone (by simpa using ht),
        nth_map _ _ t tlbNone tlbNone ht]
      by_cases he : (nth s.tlb t tlbNone).valid && (nth s.tlb t tlbNone).vpn == vpn
      · simp [he, hcc]
      · simp [he]
    · intro _
      rw [hres]
    · intro hno
      exact absurd hcc hno
  · have hres : handle_page_fault sh s vpn rw =
        ({ current :=
             { pid := s.current.pid,
               pagetable := s.current.pagetable.set (vpn >>> sh)
                 (some (d.set (vpn % 2 ^ sh)
                   { nth d (vpn % 2 ^ sh) pteNone with
                     rw := (nth d (vpn % 2 ^ sh) pteNone).priv, priv := 0 })) },
           processes := s.processes,
           tlb := s.tlb.map (fun e : TlbEntry =>
             if e.valid && e.vpn == vpn then { e with rw := rw } else e),
           mapcounts := s.mapcounts }, true) := by
      rw [heq]
      dsimp only
      rw [if_neg hcc]
    refine ⟨by rw [hres], by rw [hres], by rw [hres], ?_, ?_, ?_, ?_, ?_⟩
    · intro i hi
      rw [hres]
      exact nth_set_ne _ _ _ _ _ (fun hh => hi hh.symm)
    · rw [hres]
      refine ⟨d.set (vpn % 2 ^ sh)
        { nth d (vpn % 2 ^ sh) pteNone with
            rw := (nth d (vpn % 2 ^ sh) pteNone).priv, priv := 0 },
        nth_set_self _ _ _ _ h1, ?_, ?_⟩
      · rw [if_neg hcc, nth_set_self _ _ _ _ h2]
        rw [show ({ nth d (vpn % 2 ^ sh) pteNone with
            rw := (nth d (vpn % 2 ^ sh) pteNone).priv, priv := 0 } : Pte)
          = ⟨(nth d (vpn % 2 ^ sh) pteNone).valid,
             (nth d (vpn % 2 ^ sh) pteNone).priv,
             (nth d (vpn % 2 ^ sh) pteNone).pfn, 0⟩ from rfl, hv]
      · intro j hj
        exact nth_set_ne _ _ _ _ _ (fun hh => hj hh.symm)
    · intro t ht
      rw [hres]
      dsimp only
      rw [nth_map _ _ t tlbNone tlbNone ht]
      by_cases he : (nth s.tlb t tlbNone).valid && (nth s.tlb t tlbNone).vpn == vpn
      · simp [he, hcc]
      · simp [he]
    · intro hyes
      exact absurd hyes hcc
    · intro _
      rw [hres]

/-- C3 witness: the amended theorem evaluated at the exclusive state
c3State (count 1: in-place unlock, counts untouched) and at the shared
state c3SharedState (count 2: frame 0 drops to 1 and the lowest free
frame 1 is allocated). -/
theorem C3_witness :
    (handle_page_fault 1 c3State 0 ACCESS_WRITE).2 = true ∧
    (handle_page_fault 1 c3State 0 ACCESS_WRITE).1.mapcounts = c3State.mapcounts ∧
    (handle_page_fault 1 c3SharedState 0 ACCESS_WRITE).2 = true ∧
    (handle_page_fault 1 c3SharedState 0 ACCESS_WRITE).1.mapcounts = [1, 1] := by
  have h := C3_cow_resolution 1 c3State 0 ACCESS_WRITE
    [⟨true, ACCESS_READ, 0, 3⟩, pteNone] ⟨true, ACCESS_READ, 0, 3⟩ 1 0
    (by decide) (by decide) (by decide) (by decide) (by decide) (by decide)
    (by decide) (by decide) (by decide)
    (fun hh => absurd hh (by decide))
  have h2 := C3_cow_resolution 1 c3SharedState 0 ACCESS_WRITE
    [⟨true, ACCESS_READ, 0, 3⟩, pteNone] ⟨true, ACCESS_READ, 0, 3⟩ 2 1
    (by decide) (by decide) (by decide) (by decide) (by decide) (by decide)
    (by decide) (by decide) (by decide)
    (fun _ => ⟨by decide, by decide,
      fun q hq => by
        have hq0 : q = 0 := by omega
        rw [hq0]
        decide⟩)
  refine ⟨h.1, h.2.2.2.2.2.2.2 (by decide), h2.1, ?_⟩
  rw [h2.2.2.2.2.2.2.1 (by decide)]
  decide

/-- C4: forking (switch_process to a pid absent from the ready list): the
child becomes current with the requested pid; the ready list gains exactly
the old current at its tail, whose page table now equals the child table
value for value (the downgrade happened on the source entries before the
value copy, so both copies are identical); entry-wise, every entry whose
rights include write access has its rights saved into its backup and
replaced by read-only, every other entry is copied unchanged, and absent
slots stay absent (the child shares no directory with the parent: its
table is a value copy); the TLB is flushed; and every frame reference
count grows by exactly the number of valid child entries mapping that
frame, one increment per valid entry. -/
theorem C4_fork_cow_downgrade_and_counts (s : State) (pid : Nat)
    (hfork : s.processes.find? (fun q => q.pid == pid) = none) :
    (switch_process s pid).current.pid = pid ∧
    (switch_process s pid).processes
      = s.processes
        ++ [{ s.current with pagetable := (switch_process s pid).current.pagetable }] ∧
    (∀ i d, nth s.current.pagetable i none = some d →
      ∃ d1, nth (switch_process s pid).current.pagetable i none = some d1 ∧
        d1.length = d.length ∧
        ∀ j, j < d.length →
          nth d1 j pteNone =
            (let e := nth d j pteNone
             if (e.rw &&& ACCESS_WRITE) ≠ 0 then
               { e with priv := e.rw, rw := ACCESS_READ }
             else e)) ∧
    (∀ i, nth s.current.pagetable i none = none →
      nth (switch_process s pid).current.pagetable i none = none) ∧
    (switch_process s pid).tlb = flushTlb s.tlb ∧
    (∀ f, f < s.mapcounts.length →
      nth s.mapcounts f 0 + countTable (switch_process s pid).current.pagetable f
        < UINT32_MOD →
      nth (switch_process s pid).mapcounts f 0
        = nth s.mapcounts f 0
          + countTable (switch_process s pid).current.pagetable f) := by
  have hsw : switch_process s pid =
      { current := { pid := pid, pagetable := cowSaveTable s.current.pagetable },
        processes := s.processes
          ++ [{ s.current with pagetable := cowSaveTable s.current.pagetable }],
        tlb := flushTlb s.tlb,
        mapcounts := bumpTable s.mapcounts (cowSaveTable s.current.pagetable) } := by
    unfold switch_process
    rw [hfork]
  refine ⟨by rw [hsw], by rw [hsw], ?_, ?_, by rw [hsw], ?_⟩
  · intro i d hd
    rw [hsw]
    have hi : i < s.current.pagetable.length := lt_of_nth_eq_some _ _ _ hd
    have hmap : nth (cowSaveTable s.current.pagetable) i none
        = Option.map cowSaveDir (nth s.current.pagetable i none) := by
      unfold cowSaveTable
      exact nth_map _ _ i none none hi
    rw [hd] at hmap
    refine ⟨cowSaveDir d, hmap, by simp [cowSaveDir], ?_⟩
    intro j hj
    have := nth_map cowSavePte d j pteNone pteNone hj
    unfold cowSaveDir
    rw [this]
    rfl
  · intro i hnone
    rw [hsw]
    by_cases hi : i < s.current.pagetable.length
    · have hmap : nth (cowSaveTable s.current.pagetable) i none
          = Option.map cowSaveDir (nth s.current.pagetable i none) := by
        unfold cowSaveTable
        exact nth_map _ _ i none none hi
      rw [hnone] at hmap
      simpa using hmap
    · exact nth_of_le _ _ _ (by simpa [cowSaveTable] using Nat.le_of_not_lt hi)
  · intro f hf hw
    rw [hsw] at hw ⊢
    exact bumpTable_nth _ _ _ hf hw

/-- C4 witness: forking c4State (writable entry for vpn 0 on frame 0,
read-only entry for vpn 1 on frame 1, both counts 1) to the fresh pid 9:
pid 9 becomes current, the old pid 7 is re-enqueued with the downgraded
COW-backed table, and both frame counts become 2. -/
theorem C4_witness :
    (switch_process c4State 9).current.pid = 9 ∧
    (switch_process c4State 9).processes
      = [⟨7, [some [⟨true, ACCESS_READ, 0, 3⟩, ⟨true, ACCESS_READ, 1, 0⟩], none]⟩] ∧
    nth (switch_process c4State 9).mapcounts 0 0 = 2 ∧
    nth (switch_process c4State 9).mapcounts 1 0 = 2 := by
  have h := C4_fork_cow_downgrade_and_counts c4State 9 (by decide)
  refine ⟨h.1, ?_, ?_, ?_⟩
  · rw [h.2.1]
    decide
  · rw [h.2.2.2.2.2 0 (by decide) (by decide)]
    decide
  · rw [h.2.2.2.2.2 1 (by decide) (by decide)]
    decide

end PA3
